import Mathlib

/-!
Shallow embedding of the image-upload plugin variants of this repository.

The repository holds four JavaScript files:
* `src/index.js`            — "Enhanced-Image-Handler", embedded below under names `idx.*`;
* `src/unnamed/part_000`    — "stable-image-uploader" (external-API uploader), names `p0.*`;
* `src/unnamed/part_001`    — Enhanced-Image-Handler variant, names `p1.*`;
* `src/unnamed/part_002`    — Enhanced-Image-Handler variant with the
  `top.window.__uploadImageByPlugin` bridge, names `p2.*`.

Host-supplied functions (`getBase64Async`, `saveBase64AsFile`, `getStringHash`,
`SillyTavern.getContext`, `fetch`, canvas compression, timers) are modelled as
oracles bundled in `Host` / `P0Host` records.  Each embedded operation returns
its result together with a trace of the observable effects it performed, in
program order, so that ordering and frame properties can be stated.
-/

/-- A JavaScript `File`-like object as the plugins consume it: a MIME `type`
string, an optional `name` (absent on generic blobs), and a byte `size`. -/
structure ImageFile where
  type : String
  name : Option String
  size : Nat
deriving DecidableEq, Repr

/-- JS `a || b` for an optional string `a`: `undefined` and the empty string
are falsy, so both fall through to the default. -/
def jsOrStr (v : Option String) (d : String) : String :=
  match v with
  | none => d
  | some s => if s = "" then d else s

/-- Character-list worker for `jsSplit`: JS `String.prototype.split` with a
one-character separator. `acc` holds the current segment, reversed. -/
def splitCharAux (sep : Char) : List Char → List Char → List (List Char)
  | [], acc => [acc.reverse]
  | c :: cs, acc =>
    if c = sep then acc.reverse :: splitCharAux sep cs []
    else splitCharAux sep cs (c :: acc)

/-- JS `s.split(sep)` for a single-character separator, as used by the source
(`base64String.split(",")` and `imageFile.type.split("/")`). -/
def jsSplit (sep : Char) (s : String) : List String :=
  (splitCharAux sep s.data []).map (fun l => String.mk l)

/-- JS `s.startsWith(pre)`, evaluated as a character-prefix test. -/
def strStartsWith (s pre : String) : Bool :=
  pre.data.isPrefixOf s.data

/-- The plugin settings object `extension_settings["Enhanced-Image-Handler"]`
(fields as in `defaultSettings` in the source). -/
structure Settings where
  image_handler_enabled : Bool
  auto_save_images : Bool
  use_timestamp_prefix : Bool
  image_quality : String
deriving DecidableEq, Repr

/-- A SillyTavern character entry, with the two fields the plugins read. -/
structure Character where
  avatar : String
  name : String
deriving DecidableEq, Repr

/-- The JS value stored in `context.characterId`: the host may put a numeric
index or a string there, and the variants disagree on how to use it. -/
inductive CharId where
  | num (n : Nat)
  | str (s : String)
deriving DecidableEq, Repr

/-- The part of `getContext()` the plugins read. `characters` is the resolved
value of the awaited promise. -/
structure Context where
  characterId : CharId
  characters : List Character
deriving DecidableEq, Repr

/-- Observable effects of a run, in program order. -/
inductive Effect where
  | callGetBase64 (f : ImageFile)
  | callSave (content : Option String) (folder : String) (pfx : String) (ext : String)
  | fetchPost (url : String)
  | compressCall (f : ImageFile)
  | sleep (ms : Nat)
  | toastSuccess (msg : String)
  | toastError (msg : String)
  | toastInfo (msg : String)
  | setEnabled (b : Bool)
  | setAutoSave (b : Bool)
  | setTimestamp (b : Bool)
  | setQuality (q : String)
  | callProcessImageUpload
deriving DecidableEq, Repr

/-- Host oracles used by the Enhanced-Image-Handler variants.  `getBase64`
models `getBase64Async` (may reject), `saveBase64AsFile` models the host save
utility (its content argument is `none` when the JS value would be
`undefined`), `getStringHash` the numeric hash, `now` is `Date.getTime()`. -/
structure Host where
  getBase64 : ImageFile → Except String String
  saveBase64AsFile : Option String → String → String → String → Except String String
  getStringHash : String → Int
  now : Nat

/-- The result object `{success: true, url, filename, character}`. -/
structure UploadResult where
  success : Bool
  url : String
  filename : String
  character : String
deriving DecidableEq, Repr

/-- `imageFile.type.split("/")[1] || "png"` — the saved file's extension. -/
def fileExt (f : ImageFile) : String :=
  jsOrStr ((jsSplit '/' f.type)[1]?) "png"

/-- `${timestampPrefix}${hashSuffix}` — timestamp prefix (when enabled)
followed by `getStringHash(imageFile.name || "image")`. -/
def filePfx (s : Settings) (host : Host) (f : ImageFile) : String :=
  (if s.use_timestamp_prefix then toString host.now ++ "_" else "")
    ++ toString (host.getStringHash (jsOrStr f.name "image"))

/-- JS strict equality `c.avatar === activeCharacterId` (avatar is a string;
a numeric `characterId` is never strictly equal to it). -/
def avatarStrictEq (avatar : String) : CharId → Bool
  | .num _ => false
  | .str s => avatar = s

/-- `src/index.js` lines 49–54: find the character whose `avatar` strictly
equals `context.characterId`, defaulting to `"default"`. -/
def idx.characterName (ctx : Context) : String :=
  match ctx.characters.find? (fun c => avatarStrictEq c.avatar ctx.characterId) with
  | some c => c.name
  | none => "default"

/-- Decimal parse of a string key, evaluated structurally (digit characters
only, empty string refused). -/
def strToNat? (s : String) : Option Nat :=
  if s.data.isEmpty then none
  else
    s.data.foldl
      (fun acc c =>
        match acc with
        | none => none
        | some n => if c.isDigit then some (n * 10 + (c.toNat - 48)) else none)
      (some 0)

/-- JS array indexing `characterList[activeCharacterId]`: a numeric key
indexes directly; a string key hits only when it is the canonical decimal
representation of an in-range index. -/
def jsArrayIndex (l : List Character) : CharId → Option Character
  | .num n => l[n]?
  | .str s =>
    match strToNat? s with
    | some n => if toString n = s then l[n]? else none
    | none => none

/-- `src/unnamed/part_001` lines 52–56 (also part_002 lines 45–49): index the
character list by `context.characterId`, defaulting to `"default"`. -/
def p1.characterName (ctx : Context) : String :=
  match jsArrayIndex ctx.characters ctx.characterId with
  | some c => c.name
  | none => "default"

/-- `window.__processImageUpload` of `src/index.js` (lines 29–73).  The
argument is `none` when the JS caller passed a missing/non-object value. -/
def idx.processImageUpload (s : Settings) (host : Host) (ctx : Context)
    (file : Option ImageFile) : Except String UploadResult × List Effect :=
  if s.image_handler_enabled = false then
    (.error "Enhanced Image Handler is disabled.", [])
  else
    match file with
    | none => (.error "Please provide a valid image file.", [])
    | some f =>
      if strStartsWith f.type "image/" = false then
        (.error "Please provide a valid image file.", [])
      else
        match host.getBase64 f with
        | .error e => (.error ("Image processing failed: " ++ e), [.callGetBase64 f])
        | .ok b64 =>
          let content := (jsSplit ',' b64)[1]?
          let ext := fileExt f
          let pfx := filePfx s host f
          let cname := idx.characterName ctx
          match host.saveBase64AsFile content cname pfx ext with
          | .error e =>
            (.error ("Image processing failed: " ++ e),
             [.callGetBase64 f, .callSave content cname pfx ext])
          | .ok url =>
            (.ok { success := true, url := url, filename := pfx ++ "." ++ ext,
                   character := cname },
             [.callGetBase64 f, .callSave content cname pfx ext])

/-- `window.__processImageUpload` of `src/unnamed/part_001` (lines 31–76):
no enabled-check, character looked up by array index, Chinese messages. -/
def p1.processImageUpload (s : Settings) (host : Host) (ctx : Context)
    (file : Option ImageFile) : Except String UploadResult × List Effect :=
  match file with
  | none => (.error "请提供有效的图片文件！", [])
  | some f =>
    if strStartsWith f.type "image/" = false then
      (.error "请提供有效的图片文件！", [])
    else
      match host.getBase64 f with
      | .error e => (.error ("图片处理失败: " ++ e), [.callGetBase64 f])
      | .ok b64 =>
        let content := (jsSplit ',' b64)[1]?
        let ext := fileExt f
        let pfx := filePfx s host f
        let cname := p1.characterName ctx
        match host.saveBase64AsFile content cname pfx ext with
        | .error e =>
          (.error ("图片处理失败: " ++ e),
           [.callGetBase64 f, .callSave content cname pfx ext])
        | .ok url =>
          (.ok { success := true, url := url, filename := pfx ++ "." ++ ext,
                 character := cname },
           [.callGetBase64 f, .callSave content cname pfx ext])

/- part_002's `__processImageUpload` is embedded below the part_001 one. -/

/-- `window.__processImageUpload` of `src/unnamed/part_002` (lines 31–67);
its body coincides with the part_001 variant. -/
def p2.processImageUpload (s : Settings) (host : Host) (ctx : Context)
    (file : Option ImageFile) : Except String UploadResult × List Effect :=
  match file with
  | none => (.error "请提供有效的图片文件！", [])
  | some f =>
    if strStartsWith f.type "image/" = false then
      (.error "请提供有效的图片文件！", [])
    else
      match host.getBase64 f with
      | .error e => (.error ("图片处理失败: " ++ e), [.callGetBase64 f])
      | .ok b64 =>
        let content := (jsSplit ',' b64)[1]?
        let ext := fileExt f
        let pfx := filePfx s host f
        let cname := p1.characterName ctx
        match host.saveBase64AsFile content cname pfx ext with
        | .error e =>
          (.error ("图片处理失败: " ++ e),
           [.callGetBase64 f, .callSave content cname pfx ext])
        | .ok url =>
          (.ok { success := true, url := url, filename := pfx ++ "." ++ ext,
                 character := cname },
           [.callGetBase64 f, .callSave content cname pfx ext])

/-- The shape `{url}` returned to the phone UI by `__uploadImageByPlugin`. -/
structure UrlResult where
  url : String
deriving DecidableEq, Repr

/-- `top.window.__uploadImageByPlugin` of `src/unnamed/part_002`
(lines 74–90): refuse when the handler is disabled, otherwise delegate to
`__processImageUpload` and repackage a successful result as `{url}`
(`result.error` is `undefined` on a success object, so the dead else-branch
would throw the fallback message); any thrown error is rethrown. -/
def p2.uploadImageByPlugin (s : Settings) (host : Host) (ctx : Context)
    (file : Option ImageFile) : Except String UrlResult × List Effect :=
  if s.image_handler_enabled = false then
    (.error "增强图片处理功能未启用。", [])
  else
    match p2.processImageUpload s host ctx file with
    | (.ok r, tr) =>
      if r.success then (.ok { url := r.url }, .callProcessImageUpload :: tr)
      else (.error "未知上传错误", .callProcessImageUpload :: tr)
    | (.error e, tr) => (.error e, .callProcessImageUpload :: tr)

/-- The JS argument of `__processBatchImages`: either a genuine array of file
objects or some non-array value. -/
inductive BatchArg where
  | notArray
  | files (l : List ImageFile)

/-- One element of the array `__processBatchImages` resolves with: either the
success object of `__processImageUpload` or `{success:false, error, filename}`. -/
inductive BatchItem where
  | ok (r : UploadResult)
  | failed (error : String) (filename : Option String)
deriving DecidableEq, Repr

/-- The `for`-loop body of `__processBatchImages`: process each file in order
with the given `__processImageUpload`, pushing one item per file and
concatenating the effect traces in order. -/
def batchRun (proc : ImageFile → Except String UploadResult × List Effect) :
    List ImageFile → List BatchItem × List Effect
  | [] => ([], [])
  | f :: rest =>
    let (res, tr) := proc f
    let item : BatchItem :=
      match res with
      | .ok r => .ok r
      | .error e => .failed e f.name
    let (items, trs) := batchRun proc rest
    (item :: items, tr ++ trs)

/-- `window.__processBatchImages` (identical control flow in `src/index.js`
lines 76–95 and `src/unnamed/part_001` lines 79–99, modulo the error message
and which `__processImageUpload` is in scope). -/
def batchImages (proc : ImageFile → Except String UploadResult × List Effect)
    (errMsg : String) : BatchArg → Except String (List BatchItem) × List Effect
  | .notArray => (.error errMsg, [])
  | .files l =>
    if l.isEmpty then (.error errMsg, [])
    else
      let (items, tr) := batchRun proc l
      (.ok items, tr)

/-- `window.__processBatchImages` of `src/index.js`. -/
def idx.processBatchImages (s : Settings) (host : Host) (ctx : Context) :
    BatchArg → Except String (List BatchItem) × List Effect :=
  batchImages (fun f => idx.processImageUpload s host ctx (some f))
    "Please provide an array of image files."

/-- `window.__processBatchImages` of `src/unnamed/part_001`. -/
def p1.processBatchImages (s : Settings) (host : Host) (ctx : Context) :
    BatchArg → Except String (List BatchItem) × List Effect :=
  batchImages (fun f => p1.processImageUpload s host ctx (some f))
    "请提供图片文件数组！"

/-- The expected batch item for one file (the success object, or the error
object built in the catch-branch from the thrown message and `file.name`). -/
def itemOf (proc : ImageFile → Except String UploadResult × List Effect)
    (f : ImageFile) : BatchItem :=
  match (proc f).1 with
  | .ok r => .ok r
  | .error e => .failed e f.name

/-- The effect trace one file's processing contributes to the batch trace. -/
def traceOf (proc : ImageFile → Except String UploadResult × List Effect)
    (f : ImageFile) : List Effect :=
  (proc f).2

/-- `onImageHandlerToggle` of `src/index.js` (lines 150–155): write the
checkbox state into `extensionSettings.image_handler_enabled` and toast. -/
def idx.onImageHandlerToggle (checked : Bool) (s : Settings) :
    Settings × List Effect :=
  ({ s with image_handler_enabled := checked },
   [.setEnabled checked,
    .toastInfo (if checked then "enabled" else "disabled")])

/-- How one effect acts on the settings object: only the `set*` effects (the
UI event handlers' writes) change it. -/
def applyEffect (s : Settings) : Effect → Settings
  | .setEnabled b => { s with image_handler_enabled := b }
  | .setAutoSave b => { s with auto_save_images := b }
  | .setTimestamp b => { s with use_timestamp_prefix := b }
  | .setQuality q => { s with image_quality := q }
  | _ => s

/-- Replay an effect trace over the settings object. -/
def applyEffects (tr : List Effect) (s : Settings) : Settings :=
  tr.foldl applyEffect s

/-- The `config` object of `src/unnamed/part_000` (lines 8–16). -/
structure P0Config where
  apiUrl : String
  apiKey : String
  maxFileSize : Nat
  allowedTypes : List String
  timeout : Nat
  retryCount : Nat
  retryDelay : Nat
deriving Repr

/-- The initial configuration of the stable-image-uploader. -/
def p0.defaultConfig : P0Config :=
  { apiUrl := "https://api.imgbb.com/1/upload"
    apiKey := ""
    maxFileSize := 32 * 1024 * 1024
    allowedTypes := ["image/jpeg", "image/png", "image/gif", "image/webp"]
    timeout := 30000
    retryCount := 3
    retryDelay := 1000 }

/-- The JSON body the image-host service answers with, restricted to the
fields the code reads: `success`, `data.url` (absent when `data` or
`data.url` is missing) and `error.message`. -/
structure P0Json where
  success : Bool
  dataUrl : Option String
  errorMessage : Option String
deriving DecidableEq, Repr

/-- A `fetch` `Response` as the code reads it (`ok`, `status`, `statusText`)
together with its parsed JSON body. -/
structure P0Response where
  ok : Bool
  status : Nat
  statusText : String
  body : P0Json
deriving DecidableEq, Repr

/-- Outcome of one `fetch` call: a response, an abort (timeout), or a network
rejection with a message. -/
inductive FetchOutcome where
  | response (r : P0Response)
  | abort
  | netError (msg : String)
deriving Repr

/-- Host oracles of part_000: canvas compression and the network, the latter
indexed by the attempt number (the `retryCount` value of that attempt). -/
structure P0Host where
  compress : ImageFile → ImageFile
  fetch : Nat → FetchOutcome

/-- Outcome of the `try`-body of one `uploadImage` attempt. -/
inductive AttemptOut where
  | ok (url : String)
  | fail (msg : String)
deriving DecidableEq, Repr

/-- One pass through the `try`-block of `uploadImage` (part_000 lines 77–121):
`validateFile`, optional compression of files over 5MB, the `fetch` POST, and
decoding of the response exactly as the source does (`!response.ok` becomes an
`HTTP status` error; a body without truthy `success`/`data.url` becomes
`error?.message || '上传服务返回错误'`; an abort becomes `'上传超时'`).
Returns the outcome, the file value after possible reassignment by
compression, and the attempt's effect trace. -/
def p0.attemptOnce (cfg : P0Config) (host : P0Host) (file : Option ImageFile)
    (n : Nat) : AttemptOut × Option ImageFile × List Effect :=
  match file with
  | none => (.fail "未选择文件", none, [])
  | some f =>
    if cfg.maxFileSize < f.size then
      (.fail ("文件大小超过限制 (" ++ toString (cfg.maxFileSize / 1024 / 1024)
        ++ ".0MB)"), some f, [])
    else if cfg.allowedTypes.contains f.type = false then
      (.fail "不支持的文件类型", some f, [])
    else
      let step := if 5 * 1024 * 1024 < f.size
        then (host.compress f, [Effect.compressCall f])
        else (f, ([] : List Effect))
      let f' := step.1
      let tr := step.2 ++ [Effect.fetchPost cfg.apiUrl]
      match host.fetch n with
      | .abort => (.fail "上传超时", some f', tr)
      | .netError msg => (.fail msg, some f', tr)
      | .response resp =>
        if resp.ok = false then
          (.fail ("HTTP " ++ toString resp.status ++ ": " ++ resp.statusText),
           some f', tr)
        else
          match resp.body.dataUrl with
          | some u =>
            if resp.body.success && decide (u ≠ "") then
              (.ok u, some f', tr ++ [Effect.toastSuccess "图片上传成功！"])
            else
              (.fail (jsOrStr resp.body.errorMessage "上传服务返回错误"), some f', tr)
          | none =>
            (.fail (jsOrStr resp.body.errorMessage "上传服务返回错误"), some f', tr)

/-- Recursion worker for `uploadImage` of `src/unnamed/part_000`; `fuel`
counts the retries still allowed and only bounds the structural recursion. -/
def p0.uploadGo (cfg : P0Config) (host : P0Host) :
    Nat → Option ImageFile → Nat → Option String × List Effect
  | fuel, file, retryCount =>
    match p0.attemptOnce cfg host file retryCount with
    | (.ok url, _, tr) => (some url, tr)
    | (.fail msg, f', tr) =>
      if retryCount < cfg.retryCount then
        match fuel with
        | fuel' + 1 =>
          let rest := p0.uploadGo cfg host fuel' f' (retryCount + 1)
          (rest.1, tr ++ Effect.sleep cfg.retryDelay :: rest.2)
        | 0 =>
          -- dead branch: `uploadImage` maintains fuel = cfg.retryCount - retryCount,
          -- which is positive whenever retryCount < cfg.retryCount
          (none, tr ++ [Effect.toastError ("图片上传失败: " ++ msg)])
      else
        (none, tr ++ [Effect.toastError ("图片上传失败: " ++ msg)])

/-- `uploadImage` of `src/unnamed/part_000` (lines 76–136): run the `try`
body; on a thrown error, retry (after `delay(config.retryDelay)`) while
`retryCount < config.retryCount`, passing along the possibly-compressed file,
and otherwise end in `handleError` (error toast, `null` result).  The
recursion of the source is bounded by `config.retryCount`, which
`p0.uploadGo` tracks as a structural fuel equal to the number of retries
still allowed. -/
def p0.uploadImage (cfg : P0Config) (host : P0Host) (file : Option ImageFile)
    (retryCount : Nat) : Option String × List Effect :=
  p0.uploadGo cfg host (cfg.retryCount - retryCount) file retryCount

/-- How an `img` element obtains its source: an inline base64 data URL or a
blob URL. -/
inductive SrcHandling where
  | inlineBase64
  | blobUrl
deriving DecidableEq, Repr

/-- A DOM element as far as the interception model observes it. -/
structure DomElement where
  tag : String
  imgSrcHandling : SrcHandling
deriving DecidableEq, Repr

/-- A blob handed to `FileReader`, with the base64 payload a data URL would
inline and the identity `URL.createObjectURL` would key a blob URL on. -/
structure JsBlob where
  mime : String
  base64 : String
  blobId : Nat
deriving DecidableEq, Repr

/-- The two browser globals the interception variant replaces. -/
structure BrowserGlobals where
  createElement : String → DomElement
  readAsDataURL : JsBlob → String

/-- The native globals: `createElement` yields elements whose image sources
are inline base64, `FileReader.readAsDataURL` yields a base64 data URL. -/
def nativeGlobals : BrowserGlobals :=
  { createElement := fun t => { tag := t, imgSrcHandling := .inlineBase64 }
    readAsDataURL := fun b => "data:" ++ b.mime ++ ";base64," ++ b.base64 }

/-- Modelled from the spec: the repository's "interception" variant (not
present under `src/`) monkey-patches the global `document.createElement` and
`FileReader` so that image-element creation and base64 decoding are redirected
through blob URLs instead of inline base64 strings. -/
def applyInterceptionPatch (g : BrowserGlobals) : BrowserGlobals :=
  { createElement := fun t =>
      if t = "img" then { tag := t, imgSrcHandling := .blobUrl }
      else g.createElement t
    readAsDataURL := fun b => "blob:host/" ++ toString b.blobId }

/-- Is this effect a `fetch` POST? -/
def isFetch : Effect → Bool
  | .fetchPost _ => true
  | _ => false

/-- Is this effect a `delay(...)` sleep? -/
def isSleep : Effect → Bool
  | .sleep _ => true
  | _ => false

/-- Is this effect an error toast (`handleError` / `toastr.error`)? -/
def isToastErr : Effect → Bool
  | .toastError _ => true
  | _ => false

/-- Is this effect a call of the host `saveBase64AsFile` utility? -/
def isSaveCall : Effect → Bool
  | .callSave _ _ _ _ => true
  | _ => false

/-- Is this effect a call of one of the two host persistence utilities
(`getBase64Async` or `saveBase64AsFile`)? -/
def isHostPersist : Effect → Bool
  | .callGetBase64 _ => true
  | .callSave _ _ _ _ => true
  | _ => false

/-- Did the `try`-body of this attempt end in the `catch` branch? -/
def AttemptOut.isFailure : AttemptOut → Bool
  | .ok _ => false
  | .fail _ => true

/-- Is `__processImageUpload`'s argument rejected by the validity check
(missing / non-object, i.e. `none`, or a non-`image/*` MIME type)? -/
def invalidArg : Option ImageFile → Bool
  | none => true
  | some f => !(strStartsWith f.type "image/")

/-- The `character` field of a resolved upload result, `none` on a throw. -/
def resultCharacter : Except String UploadResult → Option String
  | .ok r => some r.character
  | .error _ => none

/-- Concrete host for witnesses: encoding yields a fixed data URL, saving
yields a URL built from its arguments, the hash is 42. -/
def cHost : Host :=
  { getBase64 := fun _ => .ok "data:image/png;base64,QUJD"
    saveBase64AsFile := fun _ folder pfx ext =>
      .ok ("/user/images/" ++ folder ++ "/" ++ pfx ++ "." ++ ext)
    getStringHash := fun _ => 42
    now := 1700000000000 }

/-- Concrete host whose encoding step always rejects. -/
def cHostEncodeFails : Host :=
  { getBase64 := fun _ => .error "read aborted"
    saveBase64AsFile := fun _ folder pfx ext =>
      .ok ("/user/images/" ++ folder ++ "/" ++ pfx ++ "." ++ ext)
    getStringHash := fun _ => 42
    now := 1700000000000 }

/-- Settings with the handler enabled (the `defaultSettings` values). -/
def settingsOn : Settings :=
  { image_handler_enabled := true, auto_save_images := true,
    use_timestamp_prefix := true, image_quality := "original" }

/-- Settings with the handler disabled. -/
def settingsOff : Settings :=
  { settingsOn with image_handler_enabled := false }

/-- A context whose `characterId` is a numeric index while the sole
character's `avatar` is a filename string. -/
def ctxA : Context :=
  { characterId := .num 0, characters := [{ avatar := "alice.png", name := "Alice" }] }

/-- A context on which find-by-avatar and array indexing agree: the avatar
string `"0"` is also the canonical index of its entry. -/
def ctxC : Context :=
  { characterId := .str "0", characters := [{ avatar := "0", name := "Zero" }] }

/-- A small PNG file input. -/
def pngFile : ImageFile :=
  { type := "image/png", name := some "a.png", size := 1234 }

/-- A non-image file input. -/
def txtFile : ImageFile :=
  { type := "text/plain", name := some "a.txt", size := 10 }

/-- A successful image-host response carrying a result URL. -/
def okResponse : P0Response :=
  { ok := true, status := 200, statusText := "OK"
    body := { success := true, dataUrl := some "https://i.ibb.co/ok.png",
              errorMessage := none } }

/-- An HTTP 500 response. -/
def errResponse : P0Response :=
  { ok := false, status := 500, statusText := "Internal Server Error"
    body := { success := false, dataUrl := none, errorMessage := none } }

/-- part_000 host whose every fetch succeeds. -/
def p0.hostAlwaysOk : P0Host :=
  { compress := id, fetch := fun _ => .response okResponse }

/-- part_000 host whose first fetch fails with HTTP 500 and whose later
fetches succeed. -/
def p0.hostFailThenOk : P0Host :=
  { compress := id
    fetch := fun n => if n = 0 then .response errResponse else .response okResponse }

/-- part_000 host whose every fetch fails with HTTP 500. -/
def p0.hostAlwaysFail : P0Host :=
  { compress := id, fetch := fun _ => .response errResponse }

/-- A small PNG input for the part_000 uploader. -/
def smallPng : ImageFile :=
  { type := "image/png", name := some "s.png", size := 1000 }

theorem splitCharAux_of_not_mem (sep : Char) (l : List Char) :
    ∀ acc, sep ∉ l → splitCharAux sep l acc = [acc.reverse ++ l] := by
  induction l with
  | nil => intro acc _; simp [splitCharAux]
  | cons c cs ih =>
    intro acc h
    rw [List.mem_cons] at h
    push_neg at h
    have hc : (c = sep) = False := by
      simp [eq_comm]; exact h.1
    simp only [splitCharAux, hc, if_false]
    rw [ih _ h.2]
    simp

theorem splitCharAux_append_sep (sep : Char) (l post : List Char) :
    ∀ acc, sep ∉ l →
      splitCharAux sep (l ++ sep :: post) acc
        = (acc.reverse ++ l) :: splitCharAux sep post [] := by
  induction l with
  | nil => intro acc _; simp [splitCharAux]
  | cons c cs ih =>
    intro acc h
    rw [List.mem_cons] at h
    push_neg at h
    have hc : (c = sep) = False := by
      simp [eq_comm]; exact h.1
    simp only [List.cons_append, splitCharAux, hc, if_false, List.append_eq]
    rw [ih _ h.2]
    simp

theorem jsSplit_first_comma (pre post : String)
    (hpre : ',' ∉ pre.data) (hpost : ',' ∉ post.data) :
    jsSplit ',' (pre ++ "," ++ post) = [pre, post] := by
  unfold jsSplit
  have hdata : (pre ++ "," ++ post).data = pre.data ++ ',' :: post.data := by
    simp [String.data_append]
  rw [hdata, splitCharAux_append_sep ',' pre.data post.data [] hpre,
    splitCharAux_of_not_mem ',' post.data [] hpost]
  simp

theorem batchRun_eq (proc : ImageFile → Except String UploadResult × List Effect)
    (l : List ImageFile) :
    batchRun proc l = (l.map (itemOf proc), (l.map (traceOf proc)).flatten) := by
  induction l with
  | nil => simp [batchRun]
  | cons f rest ih =>
    simp only [batchRun, ih, List.map_cons, List.flatten]
    cases hp : proc f with
    | mk res tr =>
      cases res <;> simp [itemOf, traceOf, hp]

theorem p2.shape (s : Settings) (host : Host) (ctx : Context)
    (file : Option ImageFile) :
    (∃ e tr, p2.processImageUpload s host ctx file = (.error e, tr))
    ∨ (∃ r tr, p2.processImageUpload s host ctx file = (.ok r, tr)
        ∧ r.success = true) := by
  cases file with
  | none => exact Or.inl ⟨"请提供有效的图片文件！", [], rfl⟩
  | some f =>
    by_cases ht : strStartsWith f.type "image/" = false
    · exact Or.inl ⟨"请提供有效的图片文件！", [], by simp [p2.processImageUpload, ht]⟩
    · cases hg : host.getBase64 f with
      | error e =>
        exact Or.inl ⟨"图片处理失败: " ++ e, [.callGetBase64 f],
          by simp [p2.processImageUpload, ht, hg]⟩
      | ok b64 =>
        cases hs : host.saveBase64AsFile ((jsSplit ',' b64)[1]?)
            (p1.characterName ctx) (filePfx s host f) (fileExt f) with
        | error e =>
          exact Or.inl ⟨"图片处理失败: " ++ e,
            [.callGetBase64 f, .callSave ((jsSplit ',' b64)[1]?)
              (p1.characterName ctx) (filePfx s host f) (fileExt f)],
            by simp [p2.processImageUpload, ht, hg, hs]⟩
        | ok url =>
          exact Or.inr ⟨UploadResult.mk true url
              (filePfx s host f ++ "." ++ fileExt f) (p1.characterName ctx),
            [.callGetBase64 f, .callSave ((jsSplit ',' b64)[1]?)
              (p1.characterName ctx) (filePfx s host f) (fileExt f)],
            by simp [p2.processImageUpload, ht, hg, hs], rfl⟩

theorem p2.success_of_ok (s : Settings) (host : Host) (ctx : Context)
    (file : Option ImageFile) (r : UploadResult) (tr : List Effect)
    (h : p2.processImageUpload s host ctx file = (.ok r, tr)) :
    r.success = true := by
  rcases p2.shape s host ctx file with ⟨e, tr', he⟩ | ⟨r', tr', hr, hs⟩
  · rw [h] at he
    simp at he
  · rw [h] at hr
    simp only [Prod.mk.injEq, Except.ok.injEq] at hr
    rw [hr.1]
    exact hs

theorem p0.attemptOnce_counts (cfg : P0Config) (host : P0Host)
    (file : Option ImageFile) (n : Nat) :
    List.countP isFetch (p0.attemptOnce cfg host file n).2.2 ≤ 1
    ∧ List.countP isSleep (p0.attemptOnce cfg host file n).2.2 = 0
    ∧ List.countP isToastErr (p0.attemptOnce cfg host file n).2.2 = 0
    ∧ List.countP isSaveCall (p0.attemptOnce cfg host file n).2.2 = 0 := by
  unfold p0.attemptOnce
  repeat' split
  all_goals simp [isFetch, isSleep, isToastErr, isSaveCall]

theorem countP_elim (p : Effect → Bool) (tr rest : List Effect) (e : Effect)
    (hpe : p e = false) :
    List.countP p (tr ++ e :: rest) = List.countP p tr + List.countP p rest := by
  rw [List.countP_append, List.countP_cons, hpe]
  simp

theorem countP_take (p : Effect → Bool) (tr rest : List Effect) (e : Effect)
    (hpe : p e = true) :
    List.countP p (tr ++ e :: rest) = List.countP p tr + List.countP p rest + 1 := by
  rw [List.countP_append, List.countP_cons, hpe]
  simp [Nat.add_assoc]

theorem countP_elim_one (p : Effect → Bool) (tr : List Effect) (e : Effect)
    (hpe : p e = false) :
    List.countP p (tr ++ [e]) = List.countP p tr := by
  rw [List.countP_append, List.countP_cons, hpe]
  simp

theorem countP_take_one (p : Effect → Bool) (tr : List Effect) (e : Effect)
    (hpe : p e = true) :
    List.countP p (tr ++ [e]) = List.countP p tr + 1 := by
  rw [List.countP_append, List.countP_cons, hpe]
  simp

theorem p0.uploadGo_counts (cfg : P0Config) (host : P0Host) :
    ∀ fuel r file,
      List.countP isFetch (p0.uploadGo cfg host fuel file r).2 ≤ fuel + 1
      ∧ List.countP isSleep (p0.uploadGo cfg host fuel file r).2 ≤ fuel
      ∧ List.countP isSaveCall (p0.uploadGo cfg host fuel file r).2 = 0 := by
  intro fuel
  induction fuel with
  | zero =>
    intro r file
    rcases hA : p0.attemptOnce cfg host file r with ⟨out, f', tr⟩
    have hc := p0.attemptOnce_counts cfg host file r
    rw [hA] at hc
    simp only at hc
    rw [p0.uploadGo, hA]
    cases out with
    | ok u => exact ⟨hc.1, le_of_eq hc.2.1, hc.2.2.2⟩
    | fail m =>
      by_cases hr : r < cfg.retryCount
      all_goals simp only [hr, if_true, if_false]
      all_goals refine ⟨?_, ?_, ?_⟩
      all_goals rw [countP_elim_one _ _ _ rfl]
      · exact hc.1
      · exact le_of_eq hc.2.1
      · exact hc.2.2.2
      · exact hc.1
      · exact le_of_eq hc.2.1
      · exact hc.2.2.2
  | succ k ih =>
    intro r file
    rcases hA : p0.attemptOnce cfg host file r with ⟨out, f', tr⟩
    have hc := p0.attemptOnce_counts cfg host file r
    rw [hA] at hc
    simp only at hc
    rw [p0.uploadGo, hA]
    cases out with
    | ok u =>
      exact ⟨hc.1.trans (by omega), hc.2.1.le.trans (by omega), hc.2.2.2⟩
    | fail m =>
      by_cases hr : r < cfg.retryCount
      · have hrec := ih (r + 1) f'
        simp only [hr, if_true]
        refine ⟨?_, ?_, ?_⟩
        · rw [countP_elim _ _ _ _ rfl]
          have h1 := hc.1
          have h2 := hrec.1
          omega
        · rw [countP_take _ _ _ _ rfl]
          have h1 := hc.2.1
          have h2 := hrec.2.1
          omega
        · rw [countP_elim _ _ _ _ rfl]
          have h1 := hc.2.2.2
          have h2 := hrec.2.2
          omega
      · simp only [hr, if_false]
        refine ⟨?_, ?_, ?_⟩
        · rw [countP_elim_one _ _ _ rfl]
          exact hc.1.trans (by omega)
        · rw [countP_elim_one _ _ _ rfl]
          exact hc.2.1.le.trans (by omega)
        · rw [countP_elim_one _ _ _ rfl]
          exact hc.2.2.2

theorem p0.uploadImage_counts (cfg : P0Config) (host : P0Host)
    (file : Option ImageFile) (r : Nat) :
    List.countP isFetch (p0.uploadImage cfg host file r).2 ≤ (cfg.retryCount - r) + 1
    ∧ List.countP isSleep (p0.uploadImage cfg host file r).2 ≤ cfg.retryCount - r
    ∧ List.countP isSaveCall (p0.uploadImage cfg host file r).2 = 0 :=
  p0.uploadGo_counts cfg host (cfg.retryCount - r) r file

theorem p0.uploadGo_allFail (cfg : P0Config) (host : P0Host)
    (hfail : ∀ g n, ((p0.attemptOnce cfg host g n).1).isFailure = true) :
    ∀ fuel r file, cfg.retryCount - r = fuel →
      (p0.uploadGo cfg host fuel file r).1 = none
      ∧ List.countP isSleep (p0.uploadGo cfg host fuel file r).2 = fuel
      ∧ List.countP isToastErr (p0.uploadGo cfg host fuel file r).2 = 1
      ∧ ∃ tr₀ m, (p0.uploadGo cfg host fuel file r).2 = tr₀ ++ [Effect.toastError m] := by
  intro fuel
  induction fuel with
  | zero =>
    intro r file h
    have hnr : ¬ r < cfg.retryCount := by omega
    rcases hA : p0.attemptOnce cfg host file r with ⟨out, f', tr⟩
    have hc := p0.attemptOnce_counts cfg host file r
    have hf := hfail file r
    rw [hA] at hc hf
    simp only at hc hf
    rw [p0.uploadGo, hA]
    cases out with
    | ok u => simp [AttemptOut.isFailure] at hf
    | fail m =>
      simp only [hnr, if_false]
      refine ⟨trivial, ?_, ?_, tr, "图片上传失败: " ++ m, rfl⟩
      · rw [countP_elim_one _ _ _ rfl]
        exact hc.2.1
      · rw [countP_take_one _ _ _ rfl, hc.2.2.1]
  | succ k ih =>
    intro r file h
    have hr : r < cfg.retryCount := by omega
    rcases hA : p0.attemptOnce cfg host file r with ⟨out, f', tr⟩
    have hc := p0.attemptOnce_counts cfg host file r
    have hf := hfail file r
    rw [hA] at hc hf
    simp only at hc hf
    rw [p0.uploadGo, hA]
    cases out with
    | ok u => simp [AttemptOut.isFailure] at hf
    | fail m =>
      have hrec := ih (r + 1) f' (by omega)
      simp only [hr, if_true]
      obtain ⟨tr₀, m₀, htr⟩ := hrec.2.2.2
      refine ⟨hrec.1, ?_, ?_, tr ++ Effect.sleep cfg.retryDelay :: tr₀, m₀, ?_⟩
      · rw [countP_take _ _ _ _ rfl, hc.2.1, hrec.2.1]
        omega
      · rw [countP_elim _ _ _ _ rfl, hc.2.2.1, hrec.2.2.1]
      · rw [htr]
        simp

theorem p0.uploadImage_allFail (cfg : P0Config) (host : P0Host)
    (hfail : ∀ g n, ((p0.attemptOnce cfg host g n).1).isFailure = true)
    (file : Option ImageFile) (r : Nat) :
    (p0.uploadImage cfg host file r).1 = none
    ∧ List.countP isSleep (p0.uploadImage cfg host file r).2 = cfg.retryCount - r
    ∧ List.countP isToastErr (p0.uploadImage cfg host file r).2 = 1
    ∧ ∃ tr₀ m, (p0.uploadImage cfg host file r).2 = tr₀ ++ [Effect.toastError m] :=
  p0.uploadGo_allFail cfg host hfail (cfg.retryCount - r) r file rfl

theorem idx_trace_hostPersist (s : Settings) (host : Host) (ctx : Context)
    (file : Option ImageFile) :
    ((idx.processImageUpload s host ctx file).2.all isHostPersist) = true := by
  by_cases hEn : s.image_handler_enabled = false
  · simp [idx.processImageUpload, hEn]
  · cases file with
    | none => simp [idx.processImageUpload, hEn]
    | some f =>
      by_cases ht : strStartsWith f.type "image/" = false
      · simp [idx.processImageUpload, hEn, ht]
      · cases hg : host.getBase64 f with
        | error e => simp [idx.processImageUpload, hEn, ht, hg, isHostPersist]
        | ok b64 =>
          cases hs : host.saveBase64AsFile ((jsSplit ',' b64)[1]?)
              (idx.characterName ctx) (filePfx s host f) (fileExt f) with
          | error e =>
            simp [idx.processImageUpload, hEn, ht, hg, hs, isHostPersist]
          | ok url =>
            simp [idx.processImageUpload, hEn, ht, hg, hs, isHostPersist]

theorem p1_trace_hostPersist (s : Settings) (host : Host) (ctx : Context)
    (file : Option ImageFile) :
    ((p1.processImageUpload s host ctx file).2.all isHostPersist) = true := by
  cases file with
  | none => simp [p1.processImageUpload]
  | some f =>
    by_cases ht : strStartsWith f.type "image/" = false
    · simp [p1.processImageUpload, ht]
    · cases hg : host.getBase64 f with
      | error e => simp [p1.processImageUpload, ht, hg, isHostPersist]
      | ok b64 =>
        cases hs : host.saveBase64AsFile ((jsSplit ',' b64)[1]?)
            (p1.characterName ctx) (filePfx s host f) (fileExt f) with
        | error e => simp [p1.processImageUpload, ht, hg, hs, isHostPersist]
        | ok url => simp [p1.processImageUpload, ht, hg, hs, isHostPersist]

theorem p2_trace_hostPersist (s : Settings) (host : Host) (ctx : Context)
    (file : Option ImageFile) :
    ((p2.processImageUpload s host ctx file).2.all isHostPersist) = true := by
  cases file with
  | none => simp [p2.processImageUpload]
  | some f =>
    by_cases ht : strStartsWith f.type "image/" = false
    · simp [p2.processImageUpload, ht]
    · cases hg : host.getBase64 f with
      | error e => simp [p2.processImageUpload, ht, hg, isHostPersist]
      | ok b64 =>
        cases hs : host.saveBase64AsFile ((jsSplit ',' b64)[1]?)
            (p1.characterName ctx) (filePfx s host f) (fileExt f) with
        | error e => simp [p2.processImageUpload, ht, hg, hs, isHostPersist]
        | ok url => simp [p2.processImageUpload, ht, hg, hs, isHostPersist]

/-- C1: with the handler enabled and an `image/*` file, `__processImageUpload`
of `src/index.js` encodes the file with the host `getBase64Async`, takes the
part of the data URL after the first comma as the content, persists that
content with the host `saveBase64AsFile`, and resolves with
`{success: true, url, filename, character}` whose `url` is exactly the value
`saveBase64AsFile` returned; the encode call precedes the persist call in the
trace, and when encoding rejects no persist call is made. -/
theorem c1_upload_encode_then_persist
    (s : Settings) (host : Host) (ctx : Context) (f : ImageFile)
    (pre content url : String)
    (hEn : s.image_handler_enabled = true)
    (hTy : strStartsWith f.type "image/" = true)
    (hB : host.getBase64 f = .ok (pre ++ "," ++ content))
    (hpre : ',' ∉ pre.data) (hcont : ',' ∉ content.data)
    (hSave : host.saveBase64AsFile (some content) (idx.characterName ctx)
        (filePfx s host f) (fileExt f) = .ok url) :
    idx.processImageUpload s host ctx (some f)
      = (.ok { success := true, url := url,
               filename := filePfx s host f ++ "." ++ fileExt f,
               character := idx.characterName ctx },
         [.callGetBase64 f,
          .callSave (some content) (idx.characterName ctx)
            (filePfx s host f) (fileExt f)])
    ∧ (∀ (host2 : Host) (e : String), host2.getBase64 f = .error e →
        idx.processImageUpload s host2 ctx (some f)
          = (.error ("Image processing failed: " ++ e), [.callGetBase64 f])) := by
  have hsplit : (jsSplit ',' (pre ++ "," ++ content))[1]? = some content := by
    rw [jsSplit_first_comma pre content hpre hcont]
    rfl
  constructor
  · simp [idx.processImageUpload, hEn, hTy, hB, hsplit, hSave]
  · intro host2 e hB2
    simp [idx.processImageUpload, hEn, hTy, hB2]

/-- C1 witness: a concrete run through `c1_upload_encode_then_persist`. -/
theorem c1_witness :
    idx.processImageUpload settingsOn cHost ctxA (some pngFile)
      = (.ok { success := true, url := "/user/images/default/1700000000000_42.png",
               filename := "1700000000000_42.png", character := "default" },
         [.callGetBase64 pngFile,
          .callSave (some "QUJD") "default" "1700000000000_42" "png"]) :=
  (c1_upload_encode_then_persist settingsOn cHost ctxA pngFile
    "data:image/png;base64" "QUJD" "/user/images/default/1700000000000_42.png"
    rfl rfl rfl (by decide) (by decide) rfl).1

/-- C2 counterexample: the part_000 uploader ("stable-image-uploader")
resolves its URL by a fetch POST to the external image-host API; its trace
holds one fetch and no call of the host save utility, refuting "every variant
persists the selected image through getBase64Async / saveBase64AsFile". -/
theorem c2_counterexample :
    p0.uploadImage p0.defaultConfig p0.hostAlwaysOk (some smallPng) 0
      = (some "https://i.ibb.co/ok.png",
         [Effect.fetchPost "https://api.imgbb.com/1/upload",
          Effect.toastSuccess "图片上传成功！"])
    ∧ List.countP isSaveCall
        (p0.uploadImage p0.defaultConfig p0.hostAlwaysOk (some smallPng) 0).2 = 0
    ∧ List.countP isFetch
        (p0.uploadImage p0.defaultConfig p0.hostAlwaysOk (some smallPng) 0).2 = 1 :=
  ⟨rfl, rfl, rfl⟩

/-- C2 (amended): the three Enhanced-Image-Handler variants persist only
through the host utilities (every effect they emit is a `getBase64Async` or
`saveBase64AsFile` call), while the part_000 uploader never calls the host
save utility — it posts to its configured external API instead. -/
theorem c2_amended_persistence :
    (∀ s host ctx file,
      ((idx.processImageUpload s host ctx file).2.all isHostPersist) = true)
    ∧ (∀ s host ctx file,
      ((p1.processImageUpload s host ctx file).2.all isHostPersist) = true)
    ∧ (∀ s host ctx file,
      ((p2.processImageUpload s host ctx file).2.all isHostPersist) = true)
    ∧ (∀ cfg host file r,
      List.countP isSaveCall (p0.uploadImage cfg host file r).2 = 0) :=
  ⟨idx_trace_hostPersist, p1_trace_hostPersist, p2_trace_hostPersist,
   fun cfg host file r => (p0.uploadImage_counts cfg host file r).2.2⟩

/-- C3 (spec-modelled): the interception variant replaces the global
`document.createElement` and `FileReader` behaviours: a patched `img` element
obtains its source through a blob URL and the patched reader resolves a
`blob:` URL, where the native behaviours use inline base64 data URLs. -/
theorem c3_interception_blob_urls :
    ((applyInterceptionPatch nativeGlobals).createElement "img"
      = { tag := "img", imgSrcHandling := .blobUrl })
    ∧ (nativeGlobals.createElement "img"
      = { tag := "img", imgSrcHandling := .inlineBase64 })
    ∧ (∀ b : JsBlob, (applyInterceptionPatch nativeGlobals).readAsDataURL b
        = "blob:host/" ++ toString b.blobId)
    ∧ (∀ b : JsBlob, nativeGlobals.readAsDataURL b
        = "data:" ++ b.mime ++ ";base64," ++ b.base64) :=
  ⟨rfl, rfl, fun _ => rfl, fun _ => rfl⟩

/-- C4 counterexample: with the same enabled settings, host and context
(numeric `characterId` 0, one character with avatar `"alice.png"` named
`"Alice"`), the index.js variant resolves character `"default"` while the
part_001 variant resolves `"Alice"`: the two `__processImageUpload`s do not
return equal results. -/
theorem c4_counterexample :
    resultCharacter (idx.processImageUpload settingsOn cHost ctxA (some pngFile)).1
      = some "default"
    ∧ resultCharacter (p1.processImageUpload settingsOn cHost ctxA (some pngFile)).1
      = some "Alice"
    ∧ (idx.processImageUpload settingsOn cHost ctxA (some pngFile)).1
      ≠ (p1.processImageUpload settingsOn cHost ctxA (some pngFile)).1 := by
  refine ⟨rfl, rfl, ?_⟩
  intro h
  have h2 : (some "default" : Option String) = some "Alice" :=
    congrArg resultCharacter h
  exact absurd h2 (by decide)

/-- C4 (amended): the index.js and part_001 `__processImageUpload` agree on
every input where the handler is enabled, the file is an `image/*` file, the
two character lookups (find-by-avatar vs array indexing) resolve the same
display name, and the host encode and save calls succeed; they differ when
the handler is disabled, when the lookups disagree, and in error-message
language. -/
theorem c4_amended_agreement
    (s : Settings) (host : Host) (ctx : Context) (f : ImageFile)
    (b64 url : String)
    (hEn : s.image_handler_enabled = true)
    (hTy : strStartsWith f.type "image/" = true)
    (hName : p1.characterName ctx = idx.characterName ctx)
    (hB : host.getBase64 f = .ok b64)
    (hSave : host.saveBase64AsFile ((jsSplit ',' b64)[1]?) (idx.characterName ctx)
        (filePfx s host f) (fileExt f) = .ok url) :
    idx.processImageUpload s host ctx (some f)
      = p1.processImageUpload s host ctx (some f) := by
  simp [idx.processImageUpload, p1.processImageUpload, hEn, hTy, hName, hB, hSave]

/-- C4 witness: on a context whose `characterId` is the string `"0"` and whose
sole character has avatar `"0"`, both lookups resolve the same character and
the two variants return identical results. -/
theorem c4_witness :
    idx.processImageUpload settingsOn cHost ctxC (some pngFile)
      = p1.processImageUpload settingsOn cHost ctxC (some pngFile) :=
  c4_amended_agreement settingsOn cHost ctxC pngFile
    "data:image/png;base64,QUJD" "/user/images/Zero/1700000000000_42.png"
    rfl rfl rfl rfl rfl

/-- C5: `__processBatchImages` (index.js and part_001 alike) throws exactly on
a non-array or empty-array argument; on every non-empty array of files it
resolves with a same-length array whose i-th element is the i-th file's
success object or its `{success:false, error, filename}` catch object, the
files being processed one at a time in order (the batch trace is the
concatenation of the per-file traces in input order). -/
theorem c5_batch_sequential (s : Settings) (host : Host) (ctx : Context) :
    (idx.processBatchImages s host ctx .notArray
      = (.error "Please provide an array of image files.", []))
    ∧ (idx.processBatchImages s host ctx (.files [])
      = (.error "Please provide an array of image files.", []))
    ∧ (∀ l : List ImageFile, l ≠ [] →
        idx.processBatchImages s host ctx (.files l)
          = (.ok (l.map (itemOf (fun f => idx.processImageUpload s host ctx (some f)))),
             (l.map (traceOf (fun f => idx.processImageUpload s host ctx (some f)))).flatten))
    ∧ (p1.processBatchImages s host ctx .notArray
      = (.error "请提供图片文件数组！", []))
    ∧ (p1.processBatchImages s host ctx (.files [])
      = (.error "请提供图片文件数组！", []))
    ∧ (∀ l : List ImageFile, l ≠ [] →
        p1.processBatchImages s host ctx (.files l)
          = (.ok (l.map (itemOf (fun f => p1.processImageUpload s host ctx (some f)))),
             (l.map (traceOf (fun f => p1.processImageUpload s host ctx (some f)))).flatten)) := by
  refine ⟨rfl, rfl, ?_, rfl, rfl, ?_⟩
  · intro l hl
    simp [idx.processBatchImages, batchImages, hl, batchRun_eq]
  · intro l hl
    simp [p1.processBatchImages, batchImages, hl, batchRun_eq]

/-- C5 witness: a two-file batch through `c5_batch_sequential`, one valid file
and one non-image file. -/
theorem c5_witness :
    idx.processBatchImages settingsOn cHost ctxA (.files [pngFile, txtFile])
      = (.ok [.ok { success := true, url := "/user/images/default/1700000000000_42.png",
                    filename := "1700000000000_42.png", character := "default" },
              .failed "Please provide a valid image file." (some "a.txt")],
         [.callGetBase64 pngFile,
          .callSave (some "QUJD") "default" "1700000000000_42" "png"]) :=
  (c5_batch_sequential settingsOn cHost ctxA).2.2.1 [pngFile, txtFile] (by simp)

theorem p0.hostAlwaysFail_fails :
    ∀ g n, ((p0.attemptOnce p0.defaultConfig p0.hostAlwaysFail g n).1).isFailure
      = true := by
  intro g n
  cases g with
  | none => rfl
  | some f =>
    simp only [p0.attemptOnce]
    split_ifs <;> simp [p0.hostAlwaysFail, errResponse, AttemptOut.isFailure]

/-- C6 counterexample: with a host whose first fetch fails (HTTP 500) and
whose second succeeds, part_000's uploader does not report the first failure:
it sleeps, fetches again, and resolves the URL with no error toast at all —
a failing upload attempt does not lead directly to handleError. -/
theorem c6_counterexample :
    p0.uploadImage p0.defaultConfig p0.hostFailThenOk (some smallPng) 0
      = (some "https://i.ibb.co/ok.png",
         [Effect.fetchPost "https://api.imgbb.com/1/upload",
          Effect.sleep 1000,
          Effect.fetchPost "https://api.imgbb.com/1/upload",
          Effect.toastSuccess "图片上传成功！"])
    ∧ List.countP isToastErr
        (p0.uploadImage p0.defaultConfig p0.hostFailThenOk (some smallPng) 0).2 = 0 :=
  ⟨rfl, rfl⟩

/-- C6 (amended): part_000's only failure reporting is handleError's
catch-and-toast, but it is not immediate: after a failing attempt the
uploader sleeps `retryDelay` and retries while attempts remain, and only when
every attempt has failed does it toast exactly once — as the final effect —
and return null. -/
theorem c6_amended_retry_then_toast (host : P0Host) (file : Option ImageFile)
    (hfail : ∀ g n,
      ((p0.attemptOnce p0.defaultConfig host g n).1).isFailure = true) :
    (p0.uploadImage p0.defaultConfig host file 0).1 = none
    ∧ List.countP isSleep (p0.uploadImage p0.defaultConfig host file 0).2 = 3
    ∧ List.countP isToastErr (p0.uploadImage p0.defaultConfig host file 0).2 = 1
    ∧ ∃ tr₀ m, (p0.uploadImage p0.defaultConfig host file 0).2
        = tr₀ ++ [Effect.toastError m] :=
  p0.uploadImage_allFail p0.defaultConfig host hfail file 0

/-- C6 witness: against the always-failing host, the uploader returns null
with exactly one error toast. -/
theorem c6_witness :
    (p0.uploadImage p0.defaultConfig p0.hostAlwaysFail (some smallPng) 0).1 = none
    ∧ List.countP isToastErr
        (p0.uploadImage p0.defaultConfig p0.hostAlwaysFail (some smallPng) 0).2 = 1 := by
  have h := c6_amended_retry_then_toast p0.hostAlwaysFail (some smallPng)
    p0.hostAlwaysFail_fails
  exact ⟨h.1, h.2.2.1⟩

/-- C7: the global hook `__uploadImageByPlugin` (part_002) throws without
delegating when the handler is disabled (empty trace); when enabled it
returns exactly `{url: r.url}` for the result `r` that `__processImageUpload`
resolved with, and it rethrows any error `__processImageUpload` threw. -/
theorem c7_bridge (s : Settings) (host : Host) (ctx : Context)
    (file : Option ImageFile) :
    (s.image_handler_enabled = false →
      p2.uploadImageByPlugin s host ctx file = (.error "增强图片处理功能未启用。", []))
    ∧ (∀ r tr, s.image_handler_enabled = true →
        p2.processImageUpload s host ctx file = (.ok r, tr) →
        p2.uploadImageByPlugin s host ctx file
          = (.ok { url := r.url }, .callProcessImageUpload :: tr))
    ∧ (∀ e tr, s.image_handler_enabled = true →
        p2.processImageUpload s host ctx file = (.error e, tr) →
        p2.uploadImageByPlugin s host ctx file
          = (.error e, .callProcessImageUpload :: tr)) := by
  refine ⟨?_, ?_, ?_⟩
  · intro hEn
    simp [p2.uploadImageByPlugin, hEn]
  · intro r tr hEn hP
    have hs := p2.success_of_ok s host ctx file r tr hP
    simp [p2.uploadImageByPlugin, hEn, hP, hs]
  · intro e tr hEn hP
    simp [p2.uploadImageByPlugin, hEn, hP]

/-- C7 witness: with the handler disabled the hook throws without calling
`__processImageUpload`. -/
theorem c7_witness :
    p2.uploadImageByPlugin settingsOff cHost ctxA (some pngFile)
      = (.error "增强图片处理功能未启用。", []) :=
  (c7_bridge settingsOff cHost ctxA (some pngFile)).1 rfl

theorem applyEffects_of_hostPersist :
    ∀ tr : List Effect, tr.all isHostPersist = true →
      ∀ s₀ : Settings, applyEffects tr s₀ = s₀ := by
  intro tr
  induction tr with
  | nil => intro _ s₀; rfl
  | cons e rest ih =>
    intro h s₀
    rw [List.all_cons, Bool.and_eq_true] at h
    have h1 : applyEffect s₀ e = s₀ := by
      cases e <;> first
        | rfl
        | (exfalso; simp [isHostPersist] at h)
    calc applyEffects (e :: rest) s₀
        = applyEffects rest (applyEffect s₀ e) := rfl
      _ = applyEffects rest s₀ := by rw [h1]
      _ = s₀ := ih h.2 s₀

/-- C8: `__processImageUpload` of index.js never modifies the extension
settings: replaying its effect trace over any settings object is the
identity; its behaviour depends only on the two fields it reads
(`image_handler_enabled`, `use_timestamp_prefix`); and the settings writes
live in the UI event handlers (`onImageHandlerToggle` emits the write that
sets the enabled flag). -/
theorem c8_settings_frame :
    (∀ s host ctx file s₀,
      applyEffects (idx.processImageUpload s host ctx file).2 s₀ = s₀)
    ∧ (∀ (e a a' t : Bool) (q q' : String) host ctx file,
      idx.processImageUpload ⟨e, a, t, q⟩ host ctx file
        = idx.processImageUpload ⟨e, a', t, q'⟩ host ctx file)
    ∧ (∀ (b : Bool) (s : Settings),
      (idx.onImageHandlerToggle b s).1
          = applyEffects (idx.onImageHandlerToggle b s).2 s
        ∧ (idx.onImageHandlerToggle b s).1.image_handler_enabled = b) := by
  refine ⟨?_, ?_, ?_⟩
  · intro s host ctx file s₀
    exact applyEffects_of_hostPersist _ (idx_trace_hostPersist s host ctx file) s₀
  · intro e a a' t q q' host ctx file
    rfl
  · intro b s
    exact ⟨rfl, rfl⟩

/-- C9: index.js's `__processImageUpload` throws with an empty effect trace
(no host function invoked) exactly when the handler is disabled or the
argument is missing, not an object, or not an `image/*` file; and the
disabled check runs before the validity check: whenever the handler is
disabled, the disabled error is the one thrown, whatever the argument. -/
theorem c9_guard_before_host_calls (s : Settings) (host : Host) (ctx : Context)
    (file : Option ImageFile) :
    (((∃ e, (idx.processImageUpload s host ctx file).1 = .error e)
        ∧ (idx.processImageUpload s host ctx file).2 = [])
      ↔ (s.image_handler_enabled = false ∨ invalidArg file = true))
    ∧ (s.image_handler_enabled = false →
        idx.processImageUpload s host ctx file
          = (.error "Enhanced Image Handler is disabled.", [])) := by
  constructor
  · constructor
    · rintro ⟨⟨e, he⟩, htr⟩
      by_contra hcon
      push_neg at hcon
      obtain ⟨hEn, hInv⟩ := hcon
      cases hh : s.image_handler_enabled with
      | false => exact hEn hh
      | true =>
        cases file with
        | none => exact hInv rfl
        | some f =>
          cases hty : strStartsWith f.type "image/" with
          | false => exact hInv (by simp [invalidArg, hty])
          | true =>
            cases hg : host.getBase64 f with
            | error e2 => simp [idx.processImageUpload, hh, hty, hg] at htr
            | ok b64 =>
              cases hs : host.saveBase64AsFile ((jsSplit ',' b64)[1]?)
                  (idx.characterName ctx) (filePfx s host f) (fileExt f) with
              | error e3 => simp [idx.processImageUpload, hh, hty, hg, hs] at htr
              | ok url => simp [idx.processImageUpload, hh, hty, hg, hs] at htr
    · intro h
      rcases h with hEn | hInv
      · exact ⟨⟨"Enhanced Image Handler is disabled.",
            by simp [idx.processImageUpload, hEn]⟩,
          by simp [idx.processImageUpload, hEn]⟩
      · cases hh : s.image_handler_enabled with
        | false =>
          exact ⟨⟨"Enhanced Image Handler is disabled.",
              by simp [idx.processImageUpload, hh]⟩,
            by simp [idx.processImageUpload, hh]⟩
        | true =>
          cases file with
          | none =>
            exact ⟨⟨"Please provide a valid image file.",
                by simp [idx.processImageUpload, hh]⟩,
              by simp [idx.processImageUpload, hh]⟩
          | some f =>
            have hty : strStartsWith f.type "image/" = false := by
              simpa [invalidArg] using hInv
            exact ⟨⟨"Please provide a valid image file.",
                by simp [idx.processImageUpload, hh, hty]⟩,
              by simp [idx.processImageUpload, hh, hty]⟩
  · intro hEn
    simp [idx.processImageUpload, hEn]

/-- C9 witness: disabled handler and a non-image argument - the disabled
error is thrown with no host call. -/
theorem c9_witness :
    idx.processImageUpload settingsOff cHost ctxA (some txtFile)
      = (.error "Enhanced Image Handler is disabled.", []) :=
  (c9_guard_before_host_calls settingsOff cHost ctxA (some txtFile)).2 rfl

/-- C10: the retry loop of part_000's `uploadImage` always terminates (its
embedding is a total function): starting from retryCount 0 with the shipped
config it performs at most `config.retryCount + 1 = 4` fetch attempts with at
most 3 retry sleeps, and when every attempt fails it stops retrying after
exactly 3 retries (4 attempts) and returns null. -/
theorem c10_retry_bounded (host : P0Host) (file : Option ImageFile) :
    List.countP isFetch (p0.uploadImage p0.defaultConfig host file 0).2 ≤ 4
    ∧ List.countP isSleep (p0.uploadImage p0.defaultConfig host file 0).2 ≤ 3
    ∧ ((∀ g n, ((p0.attemptOnce p0.defaultConfig host g n).1).isFailure = true) →
        (p0.uploadImage p0.defaultConfig host file 0).1 = none
        ∧ List.countP isSleep (p0.uploadImage p0.defaultConfig host file 0).2 = 3) := by
  have hc := p0.uploadImage_counts p0.defaultConfig host file 0
  refine ⟨hc.1, hc.2.1, ?_⟩
  intro hfail
  have h := p0.uploadImage_allFail p0.defaultConfig host hfail file 0
  exact ⟨h.1, h.2.1⟩

/-- C10 witness: an always-failing host with a non-image file - null result
after exactly three retry sleeps. -/
theorem c10_witness :
    (p0.uploadImage p0.defaultConfig p0.hostAlwaysFail (some txtFile) 0).1 = none
    ∧ List.countP isSleep
        (p0.uploadImage p0.defaultConfig p0.hostAlwaysFail (some txtFile) 0).2 = 3 :=
  (c10_retry_bounded p0.hostAlwaysFail (some txtFile)).2.2 p0.hostAlwaysFail_fails
